import Mathlib

/-!
Verification of the emoji catalog / SEO page generation service.

The data model and the storage operations follow the repository's server
code (`server/routes.ts`). The storage backend itself only exposes plain
CRUD operations; its operations are modelled from the specification, as
noted on each definition. All route-level logic (slug normalization, the
generation orchestrator, batch generation, seeding) is translated from
`server/routes.ts`.
-/

set_option autoImplicit false

namespace EmojiCopy

/-- An emoji record of the catalog store (spec section 3: id, glyph, name,
slug, category, optional subcategory, optional description, keywords,
copy counter). -/
structure Emoji where
  id : Nat
  emoji : String
  name : String
  slug : String
  category : String
  subcategory : Option String := none
  description : Option String := none
  keywords : List String := []
  copyCount : Nat := 0
deriving Repr, DecidableEq

/-- An SEO page record (spec section 3: id, slug, keyword, title, meta
description, optional markdown content, optional related emoji glyphs,
generated flag). -/
structure SeoPage where
  id : Nat
  slug : String
  keyword : String
  title : String
  metaDescription : String
  content : Option String := none
  relatedEmojis : Option (List String) := none
  isGenerated : Bool := false
deriving Repr, DecidableEq

/-- The persistence layer state: the catalog store and the page store,
plus the id counter used for newly created pages. -/
structure Store where
  emojis : List Emoji
  pages : List SeoPage
  nextPageId : Nat
deriving Repr, DecidableEq

/-! ## Slug normalization

`routes.ts` computes the slug of a keyword as
`keyword.toLowerCase().replace(/[^a-z0-9]+/g, '-').replace(/^-|-$/g, '')`.
A maximal run of characters outside `[a-z0-9]` becomes a single dash,
which is the same as mapping every such character to a dash and then
collapsing adjacent dashes; the final regex removes at most one dash at
each end of the string. -/

/-- Whether a character is kept by the slug regex, i.e. matches `[a-z0-9]`. -/
def isSlugChar (c : Char) : Bool :=
  (97 ≤ c.toNat && c.toNat ≤ 122) || (48 ≤ c.toNat && c.toNat ≤ 57)

/-- Collapse every run of adjacent dashes to a single dash. -/
def squeezeDash : List Char → List Char
  | [] => []
  | [c] => [c]
  | a :: b :: rest =>
    if a = '-' ∧ b = '-' then squeezeDash (b :: rest)
    else a :: squeezeDash (b :: rest)

/-- Remove a single leading dash, as the anchored `^-` alternative does. -/
def dropLeadDash (l : List Char) : List Char :=
  match l with
  | [] => []
  | c :: rest => if c = '-' then rest else c :: rest

/-- Remove one leading and one trailing dash, as `replace(/^-|-$/g, '')`
does on a string without adjacent dashes. -/
def stripEdgeDashes (l : List Char) : List Char :=
  ((dropLeadDash l).reverse |> dropLeadDash).reverse

/-- Lowercase every character of a string, modelling `toLowerCase()`. -/
def toLowerStr (s : String) : String :=
  String.mk (s.data.map Char.toLower)

/-- The slug of a keyword, translated from the expression used (twice) in
the `POST /api/pages/generate` handler: lowercase, collapse runs of
characters outside `[a-z0-9]` to a single dash, strip edge dashes. -/
def slugify (s : String) : String :=
  String.mk (stripEdgeDashes (squeezeDash
    ((toLowerStr s).data.map (fun c => if isSlugChar c then c else '-'))))

/-! ## First-occurrence replacement

JavaScript's `String.prototype.replace` with a plain string pattern
replaces only the first occurrence; `routes.ts` uses
`keyword.replace(' emoji', '')` before searching the catalog. -/

/-- Replace the first occurrence of `pat` in the list, if any. -/
def replaceFirstList (pat repl : List Char) : List Char → List Char
  | [] => []
  | c :: rest =>
    if pat.isPrefixOf (c :: rest) then repl ++ List.drop pat.length (c :: rest)
    else c :: replaceFirstList pat repl rest

/-- Replace the first occurrence of `pat` in `s` by `repl`, modelling
JavaScript's `s.replace(pat, repl)` for a plain string pattern. -/
def replaceFirst (pat repl s : String) : String :=
  String.mk (replaceFirstList pat.data repl.data s.data)

/-! ## Storage operations

The storage backend (`server/storage.ts`) is not part of the sources
under review; the operations below are modelled from the specification's
description of the two stores. -/

/-- Case-insensitive substring occurrence of `q` in `l`. -/
def containsSub (q : List Char) : List Char → Bool
  | [] => q.isEmpty
  | c :: rest => q.isPrefixOf (c :: rest) || containsSub q rest

/-- Modelled from the spec: free-text search is a case-insensitive
substring match against the emoji's name or keywords. -/
def matchesSearch (q : String) (e : Emoji) : Bool :=
  containsSub (toLowerStr q).data (toLowerStr e.name).data ||
    e.keywords.any (fun k => containsSub (toLowerStr q).data (toLowerStr k).data)

/-- Modelled from the spec: `getEmojis` lists the catalog optionally
filtered by free-text search and/or exact category match
(`storage.getEmojis(search?, category?)` is not under the reviewed
sources). -/
def getEmojis (search : Option String) (category : Option String) (st : Store) : List Emoji :=
  st.emojis.filter (fun e =>
    (match search with
     | none => true
     | some q => matchesSearch q e) &&
    (match category with
     | none => true
     | some c => e.category == c))

/-- Modelled from the spec: slug lookup in the page store returns the
record with the given slug (`storage.getPageBySlug`). -/
def getPageBySlug (slug : String) (st : Store) : Option SeoPage :=
  st.pages.find? (fun p => p.slug == slug)

/-- A partial update of a page record, as passed to `storage.updatePage`;
absent fields leave the record unchanged. -/
structure PagePatch where
  title : Option String := none
  metaDescription : Option String := none
  content : Option String := none
  relatedEmojis : Option (List String) := none
  isGenerated : Option Bool := none
deriving Repr, DecidableEq

/-- Apply a partial update to a page record. -/
def applyPatch (patch : PagePatch) (p : SeoPage) : SeoPage :=
  { p with
    title := patch.title.getD p.title
    metaDescription := patch.metaDescription.getD p.metaDescription
    content := match patch.content with
      | some c => some c
      | none => p.content
    relatedEmojis := match patch.relatedEmojis with
      | some r => some r
      | none => p.relatedEmojis
    isGenerated := patch.isGenerated.getD p.isGenerated }

/-- Update the record with the given id in a page list; `none` when no
record has the id. -/
def updateInList (i : Nat) (patch : PagePatch) : List SeoPage → Option (SeoPage × List SeoPage)
  | [] => none
  | p :: rest =>
    if p.id == i then some (applyPatch patch p, applyPatch patch p :: rest)
    else (updateInList i patch rest).map (fun r => (r.1, p :: r.2))

/-- Modelled from the spec: `storage.updatePage` updates the record with
the given id and returns it, or reports that the id is absent. -/
def updatePage (i : Nat) (patch : PagePatch) (st : Store) : Option SeoPage × Store :=
  match updateInList i patch st.pages with
  | none => (none, st)
  | some (q, ps) => (some q, { st with pages := ps })

/-- The data supplied to `storage.createPage`. -/
structure PageInput where
  slug : String
  title : String
  keyword : String
  metaDescription : String
  content : Option String := none
  relatedEmojis : Option (List String) := none
  isGenerated : Bool := false
deriving Repr, DecidableEq

/-- Modelled from the spec: page creation assigns a fresh id and appends
the record; creating a duplicate slug fails (the page slug column is
unique), which callers may ignore. -/
def createPage (input : PageInput) (st : Store) : Except String (SeoPage × Store) :=
  if st.pages.any (fun p => p.slug == input.slug) then
    Except.error "duplicate slug"
  else
    let page : SeoPage :=
      { id := st.nextPageId
        slug := input.slug
        title := input.title
        keyword := input.keyword
        metaDescription := input.metaDescription
        content := input.content
        relatedEmojis := input.relatedEmojis
        isGenerated := input.isGenerated }
    Except.ok (page, { st with pages := st.pages ++ [page], nextPageId := st.nextPageId + 1 })

/-- Increment the copy count of the emoji with the given id, returning
the new count; `none` when the id is absent. -/
def incEmoji (i : Nat) : List Emoji → Option (Nat × List Emoji)
  | [] => none
  | e :: rest =>
    if e.id == i then some (e.copyCount + 1, { e with copyCount := e.copyCount + 1 } :: rest)
    else
      match incEmoji i rest with
      | none => none
      | some (c, rest2) => some (c, e :: rest2)

/-- Modelled from the spec: `storage.incrementCopyCount` raises the
stored count of a known id by one and returns the new count; an unknown
id leaves the store unchanged and signals not-found. -/
def incrementCopyCount (i : Nat) (st : Store) : Option Nat × Store :=
  match incEmoji i st.emojis with
  | none => (none, st)
  | some (c, es) => (some c, { st with emojis := es })

/-- Modelled from the spec: `storage.getUngeneratedPages(limit)` fetches
up to `limit` pages whose generated flag is false. -/
def getUngeneratedPages (limit : Nat) (st : Store) : List SeoPage :=
  (st.pages.filter (fun p => p.isGenerated == false)).take limit

/-- Modelled from the spec: `storage.getEmojiCount` is the size of the
catalog store. -/
def getEmojiCount (st : Store) : Nat :=
  st.emojis.length

/-- Modelled from the spec: `storage.createEmojis` inserts a batch of
catalog records. -/
def createEmojis (batch : List Emoji) (st : Store) : Store :=
  { st with emojis := st.emojis ++ batch }

/-! ## Content generation

`generateSeoContent` in `routes.ts` is a deterministic string template
over the keyword and the related emoji list. -/

/-- Title-case a single word, modelling
`w.charAt(0).toUpperCase() + w.slice(1)`. -/
def titleCaseWord (w : String) : String :=
  match w.data with
  | [] => ""
  | c :: rest => String.mk (c.toUpper :: rest)

/-- Title-case a keyword, modelling
`keyword.split(' ').map(...).join(' ')`. -/
def titleCase (k : String) : String :=
  String.intercalate " " ((k.splitOn " ").map titleCaseWord)

/-- JavaScript's `a || b` for an optional string `a`: the fallback is
used when the field is absent or the empty string. -/
def jsOrDefault (o : Option String) (fb : String) : String :=
  match o with
  | some d => if d = "" then fb else d
  | none => fb

/-- The markdown template of `generateSeoContent` in `routes.ts`: a pure
string interpolation of the keyword, its title case, and the related
emoji list into fixed section headings. -/
def generateSeoContent (keyword : String) (relatedEmojis : List Emoji) : String :=
  let title := titleCase keyword
  let emojiSamples := String.intercalate ", "
    ((relatedEmojis.take 10).map (fun e => e.emoji ++ " " ++ e.name))
  let cleanKeyword := replaceFirst " emoji" "" keyword
  "# " ++ title ++ " - Copy & Paste\n\n" ++
  "Looking for the perfect **" ++ keyword ++ "** to use in your messages? You\x27ve come to the right place! Simply click any emoji below to copy it to your clipboard instantly.\n\n" ++
  "## Popular " ++ title ++ "s\n\n" ++
  String.intercalate "\n" ((relatedEmojis.take 10).map (fun e =>
    "- " ++ e.emoji ++ " **" ++ e.name ++ "** - " ++
      jsOrDefault e.description ("A popular emoji for expressing " ++ cleanKeyword))) ++
  "\n\n## How to Use " ++ title ++ "\n\n" ++
  "Using " ++ keyword ++ "s is easy! Just click on any emoji above and it will be copied to your clipboard. Then paste it anywhere - in text messages, social media posts, emails, or documents.\n\n" ++
  "### Where to Use " ++ title ++ "\n\n" ++
  "- **Text Messages**: Add expression to your iMessage, WhatsApp, or Telegram chats\n" ++
  "- **Social Media**: Make your Instagram, Twitter/X, Facebook, and TikTok posts stand out\n" ++
  "- **Email**: Add a personal touch to casual emails\n" ++
  "- **Documents**: Use in Google Docs, Microsoft Word, and other editors\n\n" ++
  "## About " ++ title ++ "\n\n" ++
  "The " ++ keyword ++ " is one of the most popular emojis used in digital communication. It helps convey emotions and add personality to text-based conversations. " ++
  (if 0 < relatedEmojis.length then "Related emojis include " ++ emojiSamples ++ "." else "") ++
  "\n\n## Frequently Asked Questions\n\n" ++
  "### How do I copy the " ++ keyword ++ "?\n" ++
  "Simply click on the emoji and it will be automatically copied to your clipboard. Then use Ctrl+V (or Cmd+V on Mac) to paste it anywhere.\n\n" ++
  "### Can I use the " ++ keyword ++ " on any device?\n" ++
  "Yes! Emojis are universal and work on all modern devices including iPhone, Android, Windows, and Mac computers.\n\n" ++
  "### What does the " ++ keyword ++ " mean?\n" ++
  "The " ++ keyword ++ " is commonly used to express feelings related to " ++ cleanKeyword ++ ". Its meaning can vary slightly depending on context and culture."

/-! ## Route handlers -/

/-- The outcome of `POST /api/pages/generate`: a 400 for a missing
keyword, a 200 with a page (or an empty body when the update finds no
record), a 201 with the created page, or a 500 from the catch-all. -/
inductive GenResponse where
  | badRequest
  | okPage (page : SeoPage)
  | okEmpty
  | createdPage (page : SeoPage)
  | serverError
deriving Repr, DecidableEq

/-- The page carried by a successful generation response, if any. -/
def responsePage : GenResponse → Option SeoPage
  | GenResponse.okPage p => some p
  | GenResponse.createdPage p => some p
  | _ => none

/-- The `POST /api/pages/generate` handler of `routes.ts`: reject a
missing keyword, short-circuit on an already generated page, otherwise
fetch matching emojis, build the content, and update the stub or create
the page. -/
def generateForKeyword (keywordField : Option String) (st : Store) : GenResponse × Store :=
  match keywordField with
  | none => (GenResponse.badRequest, st)
  | some keyword =>
    if keyword = "" then (GenResponse.badRequest, st)
    else
      match getPageBySlug (slugify keyword) st with
      | some existingPage =>
        if existingPage.isGenerated then (GenResponse.okPage existingPage, st)
        else
          let allEmojis := getEmojis (some (replaceFirst " emoji" "" keyword)) none st
          let relatedEmojiChars := (allEmojis.take 20).map (fun e => e.emoji)
          let content := generateSeoContent keyword allEmojis
          match updatePage existingPage.id
              { content := some content
                relatedEmojis := some relatedEmojiChars
                isGenerated := some true } st with
          | (some updated, st2) => (GenResponse.okPage updated, st2)
          | (none, st2) => (GenResponse.okEmpty, st2)
      | none =>
        let allEmojis := getEmojis (some (replaceFirst " emoji" "" keyword)) none st
        let relatedEmojiChars := (allEmojis.take 20).map (fun e => e.emoji)
        let content := generateSeoContent keyword allEmojis
        match createPage
            { slug := slugify keyword
              title := titleCase keyword ++ " - Copy & Paste"
              keyword := keyword
              metaDescription := "Copy and paste " ++ keyword ++ " instantly! Find the best " ++ keyword ++ " for messages, social media, and more."
              content := some content
              relatedEmojis := some relatedEmojiChars
              isGenerated := true } st with
        | Except.ok (page, st2) => (GenResponse.createdPage page, st2)
        | Except.error _ => (GenResponse.serverError, st)

/-- The `POST /api/emojis/:id/copy` handler of `routes.ts`: forwards to
the store's copy-count increment and returns the resulting count field. -/
def copyEndpoint (i : Nat) (st : Store) : Option Nat × Store :=
  incrementCopyCount i st

/-- One iteration of the `POST /api/pages/generate-batch` loop: fetch
the matching emojis for the page's keyword, build the content, and mark
the page generated. -/
def genStep (st : Store) (page : SeoPage) : Store :=
  let allEmojis := getEmojis (some (replaceFirst " emoji" "" page.keyword)) none st
  let relatedEmojiChars := (allEmojis.take 20).map (fun e => e.emoji)
  let content := generateSeoContent page.keyword allEmojis
  (updatePage page.id
    { content := some content
      relatedEmojis := some relatedEmojiChars
      isGenerated := some true } st).2

/-- The `POST /api/pages/generate-batch` handler of `routes.ts`: process
up to five ungenerated pages and report how many were generated (the
counter is incremented once per processed page). -/
def generateBatch (st : Store) : Nat × Store :=
  let ungenerated := getUngeneratedPages 5 st
  (ungenerated.length, ungenerated.foldl genStep st)

/-! ## Seeding -/

/-- The emoji insertion loop of `seedDatabase`: insert the catalog data
in batches of 50. -/
def seedBatches : List Emoji → Store → Store
  | [], st => st
  | e :: rest, st =>
    seedBatches ((e :: rest).drop 50) (createEmojis ((e :: rest).take 50) st)
termination_by data _ => data.length
decreasing_by simp; omega

/-- The page stub loop of `seedDatabase`: create each stub, ignoring
failures (duplicate slugs). -/
def seedPagesLoop (stubs : List PageInput) (st : Store) : Store :=
  stubs.foldl (fun s stub =>
    match createPage stub s with
    | Except.ok r => r.2
    | Except.error _ => s) st

/-- `seedDatabase` of `routes.ts`: when the catalog already holds
emojis, return immediately; otherwise insert the emoji data in batches
and create the page stubs. The seed data itself comes from
`seed-emojis.ts`, which is not under the reviewed sources, so it is a
parameter here. -/
def seedDatabase (emojiData : List Emoji) (pageStubs : List PageInput) (st : Store) : Store :=
  if 0 < getEmojiCount st then st
  else seedPagesLoop pageStubs (seedBatches emojiData st)

/-- The page record that `POST /api/pages/generate` creates for a
keyword with no existing page, spelled out from the handler's
`storage.createPage` call. -/
def createdPageFor (k : String) (st : Store) : SeoPage :=
  { id := st.nextPageId
    slug := slugify k
    title := titleCase k ++ " - Copy & Paste"
    keyword := k
    metaDescription := "Copy and paste " ++ k ++ " instantly! Find the best " ++ k ++ " for messages, social media, and more."
    content := some (generateSeoContent k
      (getEmojis (some (replaceFirst " emoji" "" k)) none st))
    relatedEmojis := some (((getEmojis
      (some (replaceFirst " emoji" "" k)) none st).take 20).map (fun e => e.emoji))
    isGenerated := true }

/-- Modelled from the spec: the claim's own reading of the emoji fetch,
removing a trailing " emoji" suffix from the keyword (compare with
`replaceFirst " emoji" ""`, which the handler actually applies to the
first occurrence). -/
def dropTrailingEmojiSuffix (k : String) : String :=
  if (" emoji".data).isSuffixOf k.data then
    String.mk (k.data.take (k.data.length - (" emoji".data).length))
  else k

/-! ## Predicates characterizing normalized slugs (proof infrastructure) -/

/-- No two adjacent characters of the list are both dashes. -/
def NoDD (l : List Char) : Prop :=
  l.Chain' (fun a b => ¬(a = '-' ∧ b = '-'))

/-- A character that can occur in a computed slug: kept by the regex
class `[a-z0-9]`, or the dash separator. -/
def GoodChar (c : Char) : Prop :=
  isSlugChar c = true ∨ c = '-'

/-! ## Concrete instances used to exercise the theorems -/

/-- A generated page for exercising the idempotent short-circuit. -/
def wPageC1 : SeoPage :=
  { id := 1, slug := "smiley-face", keyword := "smiley face",
    title := "Smiley Face - Copy & Paste", metaDescription := "meta",
    content := some "existing content", relatedEmojis := some ["😄"],
    isGenerated := true }

/-- A store already holding a generated page. -/
def wStoreC1 : Store := { emojis := [], pages := [wPageC1], nextPageId := 2 }

/-- A catalog record with a positive copy count. -/
def wEmojiC2 : Emoji :=
  { id := 1, emoji := "😀", name := "grinning face", slug := "grinning-face",
    category := "smileys", copyCount := 2 }

/-- A store holding a single catalog record. -/
def wStoreC2 : Store := { emojis := [wEmojiC2], pages := [], nextPageId := 1 }

/-- An ungenerated page stub. -/
def wPageC3a : SeoPage :=
  { id := 1, slug := "heart-emoji", keyword := "heart emoji",
    title := "Heart Emoji - Copy & Paste", metaDescription := "meta",
    isGenerated := false }

/-- A page that is already generated. -/
def wPageC3b : SeoPage :=
  { id := 2, slug := "fire-emoji", keyword := "fire emoji",
    title := "Fire Emoji - Copy & Paste", metaDescription := "meta",
    content := some "done", isGenerated := true }

/-- A store holding one ungenerated stub and one generated page. -/
def wStoreC3 : Store := { emojis := [], pages := [wPageC3a, wPageC3b], nextPageId := 3 }

/-- A store with no pages, for exercising the creation branch. -/
def wStoreC5 : Store := { emojis := [], pages := [], nextPageId := 1 }

/-- A catalog record whose name matches the keyword only after the
first-occurrence removal of " emoji". -/
def cexEmojiC5 : Emoji :=
  { id := 1, emoji := "💜", name := "heart list", slug := "heart-list",
    category := "symbols" }

/-- A store exhibiting the difference between first-occurrence removal
and trailing-suffix removal of " emoji". -/
def cexStoreC5 : Store := { emojis := [cexEmojiC5], pages := [], nextPageId := 1 }

/-- A page stub occupying a slug. -/
def wPageC8 : SeoPage :=
  { id := 1, slug := "star-emoji", keyword := "star emoji",
    title := "Star Emoji - Copy & Paste", metaDescription := "meta" }

/-- A creation request that collides with the occupied slug. -/
def wStubC8 : PageInput :=
  { slug := "star-emoji", title := "Star Emoji - Copy & Paste",
    keyword := "star emoji", metaDescription := "meta" }

/-- A store already holding the colliding slug. -/
def wStoreC8 : Store := { emojis := [], pages := [wPageC8], nextPageId := 2 }

/-- A store whose catalog is already populated. -/
def wStoreC9 : Store :=
  { emojis := [{ id := 1, emoji := "⭐", name := "star", slug := "star",
                 category := "symbols" }],
    pages := [], nextPageId := 1 }

/-! ## Helper lemmas about the modelled store operations -/

theorem incEmoji_of_not_mem (i : Nat) (l : List Emoji) (h : ∀ e ∈ l, e.id ≠ i) :
    incEmoji i l = none := by
  induction l with
  | nil => rfl
  | cons e rest ih =>
    have he : (e.id == i) = false := by
      simpa using h e (List.mem_cons_self e rest)
    simp [incEmoji, he, ih (fun x hx => h x (List.mem_cons_of_mem e hx))]

theorem incEmoji_of_find (i : Nat) (l : List Emoji) (e : Emoji)
    (h : l.find? (fun x => x.id == i) = some e) :
    ∃ l2, incEmoji i l = some (e.copyCount + 1, l2) ∧
      l2.find? (fun x => x.id == i) = some { e with copyCount := e.copyCount + 1 } ∧
      (∀ x ∈ l, x.id ≠ i → x ∈ l2) := by
  induction l with
  | nil => simp at h
  | cons a rest ih =>
    by_cases ha : (a.id == i) = true
    · have hfc : List.find? (fun x => x.id == i) (a :: rest) = some a :=
        List.find?_cons_of_pos rest ha
      rw [hfc] at h
      obtain rfl : a = e := by injection h
      refine ⟨{ a with copyCount := a.copyCount + 1 } :: rest, ?_, ?_, ?_⟩
      · simp [incEmoji, ha]
      · exact List.find?_cons_of_pos rest (by simpa using ha)
      · intro x hx hxi
        rcases List.mem_cons.mp hx with rfl | hx2
        · exact absurd (by simpa using ha) hxi
        · exact List.mem_cons_of_mem _ hx2
    · have ha2 : (a.id == i) = false := by simpa using ha
      have hfc : List.find? (fun x => x.id == i) (a :: rest)
          = List.find? (fun x => x.id == i) rest :=
        List.find?_cons_of_neg rest (by simp [ha2])
      rw [hfc] at h
      obtain ⟨l2, h1, h2, h3⟩ := ih h
      refine ⟨a :: l2, ?_, ?_, ?_⟩
      · simp [incEmoji, ha2, h1]
      · have hfc2 : List.find? (fun x => x.id == i) (a :: l2)
            = List.find? (fun x => x.id == i) l2 :=
          List.find?_cons_of_neg l2 (by simp [ha2])
        rw [hfc2]; exact h2
      · intro x hx hxi
        rcases List.mem_cons.mp hx with rfl | hx2
        · exact List.mem_cons_self x l2
        · exact List.mem_cons_of_mem a (h3 x hx2 hxi)

/-! ## Helper lemmas about page updates -/

theorem applyPatch_id (patch : PagePatch) (p : SeoPage) :
    (applyPatch patch p).id = p.id := rfl

theorem updateInList_cons (i : Nat) (patch : PagePatch) (p : SeoPage) (rest : List SeoPage) :
    updateInList i patch (p :: rest) =
      if p.id == i then some (applyPatch patch p, applyPatch patch p :: rest)
      else (updateInList i patch rest).map (fun r => (r.1, p :: r.2)) := rfl

theorem updateInList_ids (i : Nat) (patch : PagePatch) (l : List SeoPage) :
    ∀ q l2, updateInList i patch l = some (q, l2) →
      l2.map SeoPage.id = l.map SeoPage.id := by
  induction l with
  | nil => intro q l2 h; simp [updateInList] at h
  | cons p rest ih =>
    intro q l2 h
    rw [updateInList_cons] at h
    by_cases hp : (p.id == i) = true
    · rw [if_pos hp] at h
      simp only [Option.some.injEq, Prod.mk.injEq] at h
      obtain ⟨rfl, rfl⟩ := h
      simp [applyPatch_id]
    · rw [if_neg hp] at h
      cases hrec : updateInList i patch rest with
      | none => rw [hrec] at h; exact absurd h (by simp)
      | some pr =>
        obtain ⟨q2, rest2⟩ := pr
        rw [hrec] at h
        simp only [Option.map_some', Option.some.injEq, Prod.mk.injEq] at h
        obtain ⟨rfl, rfl⟩ := h
        simp [ih q2 rest2 hrec]

theorem updateInList_find_other (i : Nat) (patch : PagePatch) (l : List SeoPage) :
    ∀ q l2 j, updateInList i patch l = some (q, l2) → j ≠ i →
      l2.find? (fun x => x.id == j) = l.find? (fun x => x.id == j) := by
  induction l with
  | nil => intro q l2 j h hj; simp [updateInList] at h
  | cons p rest ih =>
    intro q l2 j h hj
    rw [updateInList_cons] at h
    by_cases hp : (p.id == i) = true
    · rw [if_pos hp] at h
      simp only [Option.some.injEq, Prod.mk.injEq] at h
      obtain ⟨rfl, rfl⟩ := h
      have hpi : p.id = i := by simpa using hp
      have e1 : List.find? (fun x => x.id == j) (applyPatch patch p :: rest)
          = List.find? (fun x => x.id == j) rest :=
        List.find?_cons_of_neg rest (by
          simp only [applyPatch_id, hpi, beq_iff_eq]
          exact fun hc => hj hc.symm)
      have e2 : List.find? (fun x => x.id == j) (p :: rest)
          = List.find? (fun x => x.id == j) rest :=
        List.find?_cons_of_neg rest (by
          simp only [hpi, beq_iff_eq]
          exact fun hc => hj hc.symm)
      rw [e1, e2]
    · rw [if_neg hp] at h
      cases hrec : updateInList i patch rest with
      | none => rw [hrec] at h; exact absurd h (by simp)
      | some pr =>
        obtain ⟨q2, rest2⟩ := pr
        rw [hrec] at h
        simp only [Option.map_some', Option.some.injEq, Prod.mk.injEq] at h
        obtain ⟨rfl, rfl⟩ := h
        by_cases hpj : (p.id == j) = true
        · have e1 : List.find? (fun x => x.id == j) (p :: rest2) = some p :=
            List.find?_cons_of_pos rest2 hpj
          have e2 : List.find? (fun x => x.id == j) (p :: rest) = some p :=
            List.find?_cons_of_pos rest hpj
          rw [e1, e2]
        · have e1 : List.find? (fun x => x.id == j) (p :: rest2)
              = List.find? (fun x => x.id == j) rest2 :=
            List.find?_cons_of_neg rest2 hpj
          have e2 : List.find? (fun x => x.id == j) (p :: rest)
              = List.find? (fun x => x.id == j) rest :=
            List.find?_cons_of_neg rest hpj
          rw [e1, e2]
          exact ih q2 rest2 j hrec hj

theorem updateInList_find_self (i : Nat) (patch : PagePatch) (l : List SeoPage) :
    ∀ p, l.find? (fun x => x.id == i) = some p →
      ∃ l2, updateInList i patch l = some (applyPatch patch p, l2) ∧
        l2.find? (fun x => x.id == i) = some (applyPatch patch p) := by
  induction l with
  | nil => intro p h; simp at h
  | cons a rest ih =>
    intro p h
    by_cases ha : (a.id == i) = true
    · have hfc : List.find? (fun x => x.id == i) (a :: rest) = some a :=
        List.find?_cons_of_pos rest ha
      rw [hfc] at h
      obtain rfl : a = p := by injection h
      refine ⟨applyPatch patch a :: rest, ?_, ?_⟩
      · rw [updateInList_cons, if_pos ha]
      · exact List.find?_cons_of_pos rest (by simpa [applyPatch_id] using ha)
    · have hfc : List.find? (fun x => x.id == i) (a :: rest)
          = List.find? (fun x => x.id == i) rest :=
        List.find?_cons_of_neg rest ha
      rw [hfc] at h
      obtain ⟨l2, h1, h2⟩ := ih p h
      refine ⟨a :: l2, ?_, ?_⟩
      · rw [updateInList_cons, if_neg ha, h1, Option.map_some']
      · have e : List.find? (fun x => x.id == i) (a :: l2)
            = List.find? (fun x => x.id == i) l2 :=
          List.find?_cons_of_neg l2 ha
        rw [e]; exact h2

theorem updatePage_ids (i : Nat) (patch : PagePatch) (st : Store) :
    (updatePage i patch st).2.pages.map SeoPage.id = st.pages.map SeoPage.id := by
  unfold updatePage
  cases hrec : updateInList i patch st.pages with
  | none => rfl
  | some pr =>
    obtain ⟨q, l2⟩ := pr
    exact updateInList_ids i patch st.pages q l2 hrec

theorem updatePage_find_other (i : Nat) (patch : PagePatch) (st : Store) (j : Nat)
    (hj : j ≠ i) :
    (updatePage i patch st).2.pages.find? (fun x => x.id == j)
      = st.pages.find? (fun x => x.id == j) := by
  unfold updatePage
  cases hrec : updateInList i patch st.pages with
  | none => rfl
  | some pr =>
    obtain ⟨q, l2⟩ := pr
    exact updateInList_find_other i patch st.pages q l2 j hrec hj

theorem updatePage_find_self (i : Nat) (patch : PagePatch) (st : Store) (p : SeoPage)
    (h : st.pages.find? (fun x => x.id == i) = some p) :
    ∃ l2, updatePage i patch st = (some (applyPatch patch p), { st with pages := l2 }) ∧
      l2.find? (fun x => x.id == i) = some (applyPatch patch p) := by
  obtain ⟨l2, h1, h2⟩ := updateInList_find_self i patch st.pages p h
  refine ⟨l2, ?_, h2⟩
  unfold updatePage
  rw [h1]

theorem find_id_of_pairwise {l : List SeoPage}
    (hids : l.Pairwise (fun a b => a.id ≠ b.id)) {p : SeoPage} (hp : p ∈ l) :
    l.find? (fun x => x.id == p.id) = some p := by
  induction l with
  | nil => exact absurd hp (List.not_mem_nil p)
  | cons a rest ih =>
    rcases List.mem_cons.mp hp with rfl | hp2
    · exact List.find?_cons_of_pos rest (by simp)
    · have hane : a.id ≠ p.id := (List.pairwise_cons.mp hids).1 p hp2
      have e : List.find? (fun x => x.id == p.id) (a :: rest)
          = List.find? (fun x => x.id == p.id) rest :=
        List.find?_cons_of_neg rest (by simpa using hane)
      rw [e]
      exact ih (List.pairwise_cons.mp hids).2 hp2

theorem find_slug_append {l : List SeoPage} {s : String} (page : SeoPage)
    (h : l.find? (fun p => p.slug == s) = none) (hp : (page.slug == s) = true) :
    (l ++ [page]).find? (fun p => p.slug == s) = some page := by
  rw [List.find?_append, h, Option.none_or]
  exact List.find?_cons_of_pos [] hp

theorem any_slug_false_of_find_none {l : List SeoPage} {s : String}
    (h : l.find? (fun p => p.slug == s) = none) :
    l.any (fun p => p.slug == s) = false := by
  rw [List.find?_eq_none] at h
  rw [List.any_eq_false]
  exact fun x hx => h x hx

/-! ## Helper lemmas about batch generation -/

theorem find_id_isSome_iff (l : List SeoPage) (j : Nat) :
    (l.find? (fun x => x.id == j)).isSome = true ↔ j ∈ l.map SeoPage.id := by
  rw [List.find?_isSome]
  constructor
  · rintro ⟨x, hx, hxj⟩
    exact List.mem_map.mpr ⟨x, hx, by simpa using hxj⟩
  · intro hj
    obtain ⟨x, hx, hxj⟩ := List.mem_map.mp hj
    exact ⟨x, hx, by simp [hxj]⟩

theorem genStep_ids (st : Store) (p : SeoPage) :
    (genStep st p).pages.map SeoPage.id = st.pages.map SeoPage.id := by
  unfold genStep
  exact updatePage_ids p.id _ st

theorem genStep_find_other (st : Store) (p : SeoPage) (j : Nat) (hj : j ≠ p.id) :
    (genStep st p).pages.find? (fun x => x.id == j)
      = st.pages.find? (fun x => x.id == j) := by
  unfold genStep
  exact updatePage_find_other p.id _ st j hj

theorem genStep_marks (st : Store) (p : SeoPage) (x : SeoPage)
    (h : st.pages.find? (fun y => y.id == p.id) = some x) :
    ∃ q, (genStep st p).pages.find? (fun y => y.id == p.id) = some q ∧
      q.isGenerated = true := by
  obtain ⟨l2, h1, h2⟩ := updatePage_find_self p.id
    { content := some (generateSeoContent p.keyword
        (getEmojis (some (replaceFirst " emoji" "" p.keyword)) none st))
      relatedEmojis := some (((getEmojis
        (some (replaceFirst " emoji" "" p.keyword)) none st).take 20).map
          (fun e => e.emoji))
      isGenerated := some true } st x h
  have hg : genStep st p = { st with pages := l2 } := congrArg Prod.snd h1
  rw [hg]
  exact ⟨_, h2, rfl⟩

theorem genStep_preserves_some (st : Store) (p : SeoPage) (j : Nat)
    (h : (st.pages.find? (fun x => x.id == j)).isSome = true) :
    ((genStep st p).pages.find? (fun x => x.id == j)).isSome = true := by
  rw [find_id_isSome_iff] at h ⊢
  rw [genStep_ids]
  exact h

theorem foldl_genStep_find_other (l : List SeoPage) :
    ∀ (st : Store) (j : Nat), (∀ q ∈ l, q.id ≠ j) →
      (l.foldl genStep st).pages.find? (fun x => x.id == j)
        = st.pages.find? (fun x => x.id == j) := by
  induction l with
  | nil => intro st j _; rfl
  | cons p rest ih =>
    intro st j h
    rw [List.foldl_cons,
      ih (genStep st p) j (fun q hq => h q (List.mem_cons_of_mem p hq))]
    exact genStep_find_other st p j (fun hj => h p (List.mem_cons_self p rest) hj.symm)

theorem foldl_genStep_marks (l : List SeoPage) :
    ∀ st : Store, l.Pairwise (fun a b => a.id ≠ b.id) →
      (∀ p ∈ l, (st.pages.find? (fun x => x.id == p.id)).isSome = true) →
      ∀ p ∈ l, ∃ q, (l.foldl genStep st).pages.find? (fun x => x.id == p.id) = some q ∧
        q.isGenerated = true := by
  induction l with
  | nil => intro st _ _ p hp; exact absurd hp (List.not_mem_nil p)
  | cons a rest ih =>
    intro st hpw hsome p hp
    rw [List.foldl_cons]
    rcases List.mem_cons.mp hp with rfl | hp2
    · obtain ⟨x, hx⟩ := Option.isSome_iff_exists.mp (hsome p (List.mem_cons_self p rest))
      obtain ⟨q, hq1, hq2⟩ := genStep_marks st p x hx
      refine ⟨q, ?_, hq2⟩
      rw [foldl_genStep_find_other rest (genStep st p) p.id
        (fun r hr => ((List.pairwise_cons.mp hpw).1 r hr).symm)]
      exact hq1
    · apply ih (genStep st a) (List.pairwise_cons.mp hpw).2 ?_ p hp2
      intro r hr
      exact genStep_preserves_some st a r.id (hsome r (List.mem_cons_of_mem a hr))

/-! ## Helper lemmas for slug normalization -/

theorem squeezeDash_cons_cons (a b : Char) (rest : List Char) :
    squeezeDash (a :: b :: rest) =
      if a = '-' ∧ b = '-' then squeezeDash (b :: rest)
      else a :: squeezeDash (b :: rest) := rfl

theorem squeezeDash_cons (l : List Char) :
    ∀ c, ∃ t, squeezeDash (c :: l) = c :: t := by
  induction l with
  | nil => exact fun c => ⟨[], rfl⟩
  | cons b rest ih =>
    intro c
    by_cases h : c = '-' ∧ b = '-'
    · obtain ⟨t, ht⟩ := ih b
      refine ⟨t, ?_⟩
      rw [squeezeDash_cons_cons, if_pos h, ht, h.1, h.2]
    · exact ⟨squeezeDash (b :: rest), by rw [squeezeDash_cons_cons, if_neg h]⟩

theorem squeezeDash_noDD (l : List Char) : NoDD (squeezeDash l) := by
  induction l with
  | nil => exact List.chain'_nil
  | cons a tail ih =>
    cases tail with
    | nil => exact List.chain'_singleton a
    | cons b rest =>
      by_cases h : a = '-' ∧ b = '-'
      · rw [squeezeDash_cons_cons, if_pos h]; exact ih
      · rw [squeezeDash_cons_cons, if_neg h]
        obtain ⟨t, ht⟩ := squeezeDash_cons rest b
        rw [ht] at ih ⊢
        exact List.chain'_cons.mpr ⟨h, ih⟩

theorem squeezeDash_fixed (l : List Char) (h : NoDD l) : squeezeDash l = l := by
  induction l with
  | nil => rfl
  | cons a tail ih =>
    cases tail with
    | nil => rfl
    | cons b rest =>
      have hc := List.chain'_cons.mp h
      rw [squeezeDash_cons_cons, if_neg hc.1, ih hc.2]

theorem squeezeDash_mem (l : List Char) : ∀ c ∈ squeezeDash l, c ∈ l := by
  induction l with
  | nil => intro c hc; exact absurd hc (List.not_mem_nil c)
  | cons a tail ih =>
    cases tail with
    | nil => intro c hc; exact hc
    | cons b rest =>
      intro c hc
      by_cases h : a = '-' ∧ b = '-'
      · rw [squeezeDash_cons_cons, if_pos h] at hc
        exact List.mem_cons_of_mem a (ih c hc)
      · rw [squeezeDash_cons_cons, if_neg h] at hc
        rcases List.mem_cons.mp hc with rfl | hc2
        · exact List.mem_cons_self c _
        · exact List.mem_cons_of_mem a (ih c hc2)

theorem dropLeadDash_cons (a : Char) (rest : List Char) :
    dropLeadDash (a :: rest) = if a = '-' then rest else a :: rest := rfl

theorem dropLeadDash_mem (l : List Char) : ∀ c ∈ dropLeadDash l, c ∈ l := by
  cases l with
  | nil => intro c hc; exact absurd hc (List.not_mem_nil c)
  | cons a rest =>
    intro c hc
    rw [dropLeadDash_cons] at hc
    by_cases h : a = '-'
    · rw [if_pos h] at hc
      exact List.mem_cons_of_mem a hc
    · rwa [if_neg h] at hc

theorem dropLeadDash_noDD {l : List Char} (h : NoDD l) : NoDD (dropLeadDash l) := by
  cases l with
  | nil => exact h
  | cons a rest =>
    rw [dropLeadDash_cons]
    by_cases ha : a = '-'
    · rw [if_pos ha]; exact h.tail
    · rw [if_neg ha]; exact h

theorem dropLeadDash_head {l : List Char} (h : NoDD l) :
    (dropLeadDash l).head? ≠ some '-' := by
  cases l with
  | nil => simp [dropLeadDash]
  | cons a rest =>
    rw [dropLeadDash_cons]
    by_cases ha : a = '-'
    · rw [if_pos ha]
      cases rest with
      | nil => simp
      | cons b rest2 =>
        have hr := (List.chain'_cons.mp h).1
        subst ha
        simp only [List.head?_cons, ne_eq, Option.some.injEq]
        intro hb
        exact hr ⟨rfl, hb⟩
    · rw [if_neg ha]
      simp [ha]

theorem dropLeadDash_getLast {l : List Char} (h : l.getLast? ≠ some '-') :
    (dropLeadDash l).getLast? ≠ some '-' := by
  cases l with
  | nil => simp [dropLeadDash]
  | cons a rest =>
    rw [dropLeadDash_cons]
    by_cases ha : a = '-'
    · rw [if_pos ha]
      cases rest with
      | nil => simp
      | cons b rest2 =>
        rw [List.getLast?_cons_cons] at h
        exact h
    · rw [if_neg ha]; exact h

theorem dropLeadDash_id {l : List Char} (h : l.head? ≠ some '-') :
    dropLeadDash l = l := by
  cases l with
  | nil => rfl
  | cons a rest =>
    rw [dropLeadDash_cons, if_neg]
    intro ha
    exact h (by simp [ha])

theorem noDD_reverse {l : List Char} (h : NoDD l) : NoDD l.reverse := by
  apply List.chain'_reverse.mpr
  exact List.Chain'.imp (fun a b hab h2 => hab ⟨h2.2, h2.1⟩) h

theorem stripEdgeDashes_props (l0 : List Char) (h0 : NoDD l0) :
    NoDD (stripEdgeDashes l0) ∧ (stripEdgeDashes l0).head? ≠ some '-' ∧
    (stripEdgeDashes l0).getLast? ≠ some '-' ∧ (∀ c ∈ stripEdgeDashes l0, c ∈ l0) := by
  have h1n : NoDD (dropLeadDash l0) := dropLeadDash_noDD h0
  have h1h : (dropLeadDash l0).head? ≠ some '-' := dropLeadDash_head h0
  have h2n : NoDD (dropLeadDash l0).reverse := noDD_reverse h1n
  have h2l : (dropLeadDash l0).reverse.getLast? ≠ some '-' := by
    rw [List.getLast?_reverse]; exact h1h
  have h3n : NoDD (dropLeadDash ((dropLeadDash l0).reverse)) := dropLeadDash_noDD h2n
  have h3h : (dropLeadDash ((dropLeadDash l0).reverse)).head? ≠ some '-' :=
    dropLeadDash_head h2n
  have h3l : (dropLeadDash ((dropLeadDash l0).reverse)).getLast? ≠ some '-' :=
    dropLeadDash_getLast h2l
  have hse : stripEdgeDashes l0 = (dropLeadDash ((dropLeadDash l0).reverse)).reverse := rfl
  refine ⟨?_, ?_, ?_, ?_⟩
  · rw [hse]; exact noDD_reverse h3n
  · rw [hse, List.head?_reverse]; exact h3l
  · rw [hse, List.getLast?_reverse]; exact h3h
  · intro c hc
    rw [hse, List.mem_reverse] at hc
    have hc2 := dropLeadDash_mem _ c hc
    rw [List.mem_reverse] at hc2
    exact dropLeadDash_mem l0 c hc2

theorem stripEdgeDashes_id {l : List Char} (hh : l.head? ≠ some '-')
    (hl : l.getLast? ≠ some '-') : stripEdgeDashes l = l := by
  have h1 : dropLeadDash l = l := dropLeadDash_id hh
  have h2 : dropLeadDash l.reverse = l.reverse := by
    apply dropLeadDash_id
    rw [List.head?_reverse]; exact hl
  show (dropLeadDash ((dropLeadDash l).reverse)).reverse = l
  rw [h1, h2, List.reverse_reverse]

theorem slugMap_good (c : Char) : GoodChar (if isSlugChar c then c else '-') := by
  by_cases h : isSlugChar c = true
  · rw [if_pos h]; exact Or.inl h
  · rw [if_neg h]; exact Or.inr rfl

theorem toLower_fixed {c : Char} (h : GoodChar c) : c.toLower = c := by
  rcases h with h | rfl
  · have h2 : (97 ≤ c.toNat ∧ c.toNat ≤ 122) ∨ (48 ≤ c.toNat ∧ c.toNat ≤ 57) := by
      simpa [isSlugChar] using h
    show (if c.toNat ≥ 65 ∧ c.toNat ≤ 90 then Char.ofNat (c.toNat + 32) else c) = c
    rw [if_neg]
    omega
  · decide

theorem slugMap_fixed {c : Char} (h : GoodChar c) :
    (if isSlugChar c.toLower then c.toLower else '-') = c := by
  rw [toLower_fixed h]
  rcases h with h | rfl
  · rw [if_pos h]
  · rw [if_neg (by decide)]

theorem slugify_fixed {l : List Char} (hg : ∀ c ∈ l, GoodChar c) (hn : NoDD l)
    (hh : l.head? ≠ some '-') (hl : l.getLast? ≠ some '-') :
    slugify (String.mk l) = String.mk l := by
  have hmap : (toLowerStr (String.mk l)).data.map
      (fun c => if isSlugChar c then c else '-') = l := by
    show (l.map Char.toLower).map (fun c => if isSlugChar c then c else '-') = l
    rw [List.map_map]
    have hcg : ∀ c ∈ l,
        ((fun c => if isSlugChar c then c else '-') ∘ Char.toLower) c = id c := by
      intro c hc
      exact slugMap_fixed (hg c hc)
    rw [List.map_congr_left hcg, List.map_id]
  show String.mk (stripEdgeDashes (squeezeDash ((toLowerStr (String.mk l)).data.map
    (fun c => if isSlugChar c then c else '-')))) = String.mk l
  rw [hmap, squeezeDash_fixed l hn, stripEdgeDashes_id hh hl]

theorem slugify_idem (s : String) : slugify (slugify s) = slugify s := by
  obtain ⟨hn, hh, hl, hsub⟩ := stripEdgeDashes_props
    (squeezeDash ((toLowerStr s).data.map (fun c => if isSlugChar c then c else '-')))
    (squeezeDash_noDD _)
  have hgood : ∀ c ∈ (slugify s).data, GoodChar c := by
    intro c hc
    have hc2 := hsub c hc
    have hc3 := squeezeDash_mem _ c hc2
    obtain ⟨d, hd, hfd⟩ := List.mem_map.mp hc3
    rw [← hfd]
    exact slugMap_good d
  exact slugify_fixed hgood hn hh hl

/-! ## Claim theorems -/

/-- C2: incrementing the copy count of an id present in the store raises
that emoji's stored count by exactly one (and leaves the other records
and the page store alone); incrementing an absent id leaves the store
unchanged and signals not-found through the response of
`POST /api/emojis/:id/copy`. -/
theorem copyEndpoint_correct (st : Store) (i : Nat) :
    (∀ e, st.emojis.find? (fun x => x.id == i) = some e →
      (copyEndpoint i st).1 = some (e.copyCount + 1) ∧
      (copyEndpoint i st).2.emojis.find? (fun x => x.id == i)
        = some { e with copyCount := e.copyCount + 1 } ∧
      (∀ x ∈ st.emojis, x.id ≠ i → x ∈ (copyEndpoint i st).2.emojis) ∧
      (copyEndpoint i st).2.pages = st.pages) ∧
    ((∀ e ∈ st.emojis, e.id ≠ i) → copyEndpoint i st = (none, st)) := by
  constructor
  · intro e he
    obtain ⟨l2, h1, h2, h3⟩ := incEmoji_of_find i st.emojis e he
    refine ⟨?_, ?_, ?_, ?_⟩ <;>
      simp only [copyEndpoint, incrementCopyCount, h1]
    · exact h2
    · exact h3
  · intro h
    simp [copyEndpoint, incrementCopyCount, incEmoji_of_not_mem i st.emojis h]

theorem copyEndpoint_correct_witness :
    (copyEndpoint 1 wStoreC2).1 = some 3 ∧ copyEndpoint 2 wStoreC2 = (none, wStoreC2) :=
  ⟨((copyEndpoint_correct wStoreC2 1).1 wEmojiC2 (by decide)).1,
   (copyEndpoint_correct wStoreC2 2).2 (by decide)⟩

/-- C3: `POST /api/pages/generate-batch` fetches at most five pages with
a false generated flag, marks each fetched page as generated, and the
returned counter equals exactly the number of pages generated in the
call. -/
theorem generateBatch_correct (st : Store)
    (hids : st.pages.Pairwise (fun a b => a.id ≠ b.id)) :
    (generateBatch st).1 ≤ 5 ∧
    (generateBatch st).1 = (getUngeneratedPages 5 st).length ∧
    (∀ p ∈ getUngeneratedPages 5 st, p ∈ st.pages ∧ p.isGenerated = false) ∧
    (∀ p ∈ getUngeneratedPages 5 st,
      ∃ q, (generateBatch st).2.pages.find? (fun x => x.id == p.id) = some q ∧
        q.isGenerated = true) := by
  have hsub : (getUngeneratedPages 5 st).Sublist st.pages :=
    (List.take_sublist 5 _).trans (List.filter_sublist st.pages)
  refine ⟨?_, rfl, ?_, ?_⟩
  · show (getUngeneratedPages 5 st).length ≤ 5
    unfold getUngeneratedPages
    rw [List.length_take]
    exact Nat.min_le_left _ _
  · intro p hp
    refine ⟨hsub.mem hp, ?_⟩
    have hf := List.mem_filter.mp (List.mem_of_mem_take hp)
    simpa using hf.2
  · intro p hp
    exact foldl_genStep_marks (getUngeneratedPages 5 st) st
      (List.Pairwise.sublist hsub hids)
      (fun r hr => List.find?_isSome.mpr ⟨r, hsub.mem hr, by simp⟩) p hp

theorem generateBatch_correct_witness :
    (generateBatch wStoreC3).1 ≤ 5 ∧
    (generateBatch wStoreC3).1 = (getUngeneratedPages 5 wStoreC3).length := by
  have h := generateBatch_correct wStoreC3 (by decide)
  exact ⟨h.1, h.2.1⟩

/-- C4: slug derivation is deterministic (a function of the keyword
alone) and idempotent: normalizing the normalization of any keyword
yields the same string. -/
theorem slugify_deterministic_idempotent :
    (∀ k1 k2 : String, k1 = k2 → slugify k1 = slugify k2) ∧
    (∀ s : String, slugify (slugify s) = slugify s) :=
  ⟨fun k1 k2 h => by rw [h], slugify_idem⟩

theorem slugify_deterministic_idempotent_witness :
    slugify "Heart Emoji!" = slugify "Heart Emoji!" ∧
    slugify (slugify "Heart Emoji!") = slugify "Heart Emoji!" :=
  ⟨slugify_deterministic_idempotent.1 "Heart Emoji!" "Heart Emoji!" rfl,
   slugify_deterministic_idempotent.2 "Heart Emoji!"⟩

/-- C5 (amended): for a non-empty keyword whose page is not yet
generated, the handler fetches the emojis matching the keyword with the
first occurrence of " emoji" removed, stores the first twenty matches
as related glyphs, derives the markdown from the keyword and matches,
and persists the result with a true generated flag — updating the
existing stub when one exists and creating a new record otherwise. -/
theorem generateForKeyword_ungenerated (st : Store) (k : String) (hk : k ≠ "")
    (hids : st.pages.Pairwise (fun a b => a.id ≠ b.id)) :
    (∀ p, getPageBySlug (slugify k) st = some p → p.isGenerated = false →
      ∃ q st2, generateForKeyword (some k) st = (GenResponse.okPage q, st2) ∧
        q.id = p.id ∧ q.slug = p.slug ∧ q.keyword = p.keyword ∧ q.title = p.title ∧
        q.content = some (generateSeoContent k
          (getEmojis (some (replaceFirst " emoji" "" k)) none st)) ∧
        q.relatedEmojis = some (((getEmojis
          (some (replaceFirst " emoji" "" k)) none st).take 20).map (fun e => e.emoji)) ∧
        q.isGenerated = true ∧
        st2.pages.find? (fun x => x.id == p.id) = some q) ∧
    (getPageBySlug (slugify k) st = none →
      ∃ q st2, generateForKeyword (some k) st = (GenResponse.createdPage q, st2) ∧
        q.slug = slugify k ∧ q.keyword = k ∧
        q.content = some (generateSeoContent k
          (getEmojis (some (replaceFirst " emoji" "" k)) none st)) ∧
        q.relatedEmojis = some (((getEmojis
          (some (replaceFirst " emoji" "" k)) none st).take 20).map (fun e => e.emoji)) ∧
        q.isGenerated = true ∧
        getPageBySlug (slugify k) st2 = some q) := by
  constructor
  · intro p hp hgen
    have hpm : p ∈ st.pages := List.mem_of_find?_eq_some hp
    have hfid : st.pages.find? (fun x => x.id == p.id) = some p :=
      find_id_of_pairwise hids hpm
    obtain ⟨l2, h1, h2⟩ := updatePage_find_self p.id
      { content := some (generateSeoContent k
          (getEmojis (some (replaceFirst " emoji" "" k)) none st))
        relatedEmojis := some (((getEmojis
          (some (replaceFirst " emoji" "" k)) none st).take 20).map (fun e => e.emoji))
        isGenerated := some true } st p hfid
    have hshape : generateForKeyword (some k) st
        = (GenResponse.okPage (applyPatch
            { content := some (generateSeoContent k
                (getEmojis (some (replaceFirst " emoji" "" k)) none st))
              relatedEmojis := some (((getEmojis
                (some (replaceFirst " emoji" "" k)) none st).take 20).map (fun e => e.emoji))
              isGenerated := some true } p),
           { st with pages := l2 }) := by
      simp [generateForKeyword, hk, hp, hgen, h1, -List.map_take]
    exact ⟨_, _, hshape, rfl, rfl, rfl, rfl, rfl, rfl, rfl, h2⟩
  · intro hnone
    have hn2 : st.pages.find? (fun p => p.slug == slugify k) = none := hnone
    have hany := any_slug_false_of_find_none hn2
    have hcreate : createPage
        { slug := slugify k
          title := titleCase k ++ " - Copy & Paste"
          keyword := k
          metaDescription := "Copy and paste " ++ k ++ " instantly! Find the best " ++ k ++ " for messages, social media, and more."
          content := some (generateSeoContent k
            (getEmojis (some (replaceFirst " emoji" "" k)) none st))
          relatedEmojis := some (((getEmojis
            (some (replaceFirst " emoji" "" k)) none st).take 20).map (fun e => e.emoji))
          isGenerated := true } st
        = Except.ok (createdPageFor k st,
            { st with
              pages := st.pages ++ [createdPageFor k st]
              nextPageId := st.nextPageId + 1 }) := by
      simp only [createPage, hany]
      rfl
    have hshape : generateForKeyword (some k) st
        = (GenResponse.createdPage (createdPageFor k st),
           { st with
             pages := st.pages ++ [createdPageFor k st]
             nextPageId := st.nextPageId + 1 }) := by
      simp [generateForKeyword, hk, hnone, hcreate, -List.map_take]
    have hfind : getPageBySlug (slugify k)
        { st with
          pages := st.pages ++ [createdPageFor k st]
          nextPageId := st.nextPageId + 1 } = some (createdPageFor k st) :=
      find_slug_append (createdPageFor k st) hn2 (by simp [createdPageFor])
    exact ⟨_, _, hshape, rfl, rfl, rfl, rfl, rfl, hfind⟩

theorem generateForKeyword_ungenerated_witness :
    ∃ q st2, generateForKeyword (some "smiley face") wStoreC5
        = (GenResponse.createdPage q, st2) ∧
      q.slug = slugify "smiley face" ∧ q.keyword = "smiley face" ∧
      q.content = some (generateSeoContent "smiley face"
        (getEmojis (some (replaceFirst " emoji" "" "smiley face")) none wStoreC5)) ∧
      q.relatedEmojis = some (((getEmojis
        (some (replaceFirst " emoji" "" "smiley face")) none wStoreC5).take 20).map
          (fun e => e.emoji)) ∧
      q.isGenerated = true ∧
      getPageBySlug (slugify "smiley face") st2 = some q :=
  (generateForKeyword_ungenerated wStoreC5 "smiley face"
    (by decide) List.Pairwise.nil).2 rfl

/-- C5 (counterexample): for the keyword "heart emoji list" the handler
searches the catalog for "heart list" (first occurrence of " emoji"
removed), not for the keyword with a trailing " emoji" suffix removed,
so the stored related glyphs differ from the ones the claim predicts. -/
theorem generateForKeyword_suffix_counterexample :
    (responsePage (generateForKeyword (some "heart emoji list") cexStoreC5).1).map
        SeoPage.relatedEmojis = some (some ["💜"]) ∧
    ((getEmojis (some (dropTrailingEmojiSuffix "heart emoji list")) none cexStoreC5).take 20).map
        (fun e => e.emoji) = [] ∧
    (some (some ["💜"]) : Option (Option (List String))) ≠ some (some []) := by
  refine ⟨rfl, rfl, ?_⟩
  simp

/-- C6: a missing or empty keyword in the body of
`POST /api/pages/generate` yields a 400 response and leaves the store
untouched; the guard fires before any lookup or write. -/
theorem generate_missing_keyword_rejected (st : Store) :
    generateForKeyword none st = (GenResponse.badRequest, st) ∧
    generateForKeyword (some "") st = (GenResponse.badRequest, st) := by
  constructor
  · rfl
  · simp [generateForKeyword]

/-- C7: the content generator is deterministic; equal keywords and equal
related-emoji lists produce equal markdown, the output depending on
nothing else. -/
theorem generateSeoContent_deterministic (k1 k2 : String) (l1 l2 : List Emoji)
    (hk : k1 = k2) (hl : l1 = l2) :
    generateSeoContent k1 l1 = generateSeoContent k2 l2 := by
  subst hk; subst hl; rfl

theorem generateSeoContent_deterministic_witness :
    generateSeoContent "smiley face" [] = generateSeoContent "smiley face" [] :=
  generateSeoContent_deterministic "smiley face" "smiley face" [] [] rfl rfl

/-- C8: during seeding, creating a page whose slug is already occupied
fails in the store, the failure is swallowed, and the loop continues
with the remaining stubs as if the colliding stub had been skipped. -/
theorem seed_duplicate_slug_noop (st : Store) (stub : PageInput) (rest : List PageInput)
    (h : ∃ p ∈ st.pages, p.slug = stub.slug) :
    (∃ msg, createPage stub st = Except.error msg) ∧
    seedPagesLoop (stub :: rest) st = seedPagesLoop rest st := by
  have hany : st.pages.any (fun p => p.slug == stub.slug) = true := by
    obtain ⟨p, hp, hs⟩ := h
    exact List.any_eq_true.mpr ⟨p, hp, by simp [hs]⟩
  have hcp : createPage stub st = Except.error "duplicate slug" := by
    unfold createPage
    rw [hany]
    simp
  constructor
  · exact ⟨"duplicate slug", hcp⟩
  · simp [seedPagesLoop, hcp]

theorem seed_duplicate_slug_noop_witness :
    seedPagesLoop [wStubC8] wStoreC8 = seedPagesLoop [] wStoreC8 :=
  (seed_duplicate_slug_noop wStoreC8 wStubC8 []
    ⟨wPageC8, by decide, by decide⟩).2

/-- C9: the seed routine populates the catalog at most once; when the
emoji count is already positive it returns with both stores unchanged. -/
theorem seedDatabase_skips_when_populated (emojiData : List Emoji)
    (pageStubs : List PageInput) (st : Store) (h : 0 < getEmojiCount st) :
    seedDatabase emojiData pageStubs st = st := by
  simp [seedDatabase, h]

theorem seedDatabase_skips_witness :
    seedDatabase [] [] wStoreC9 = wStoreC9 :=
  seedDatabase_skips_when_populated [] [] wStoreC9 (by decide)

/-- C1: once a page is marked generated, `POST /api/pages/generate` is
idempotent: for a non-empty keyword whose computed slug resolves to an
existing page with a true generated flag, the handler returns that page
unchanged and the store is untouched. -/
theorem generate_idempotent_when_generated (st : Store) (k : String) (p : SeoPage)
    (hk : k ≠ "") (hp : getPageBySlug (slugify k) st = some p)
    (hgen : p.isGenerated = true) :
    generateForKeyword (some k) st = (GenResponse.okPage p, st) := by
  simp [generateForKeyword, hk, hp, hgen]

theorem generate_idempotent_witness :
    generateForKeyword (some "Smiley Face") wStoreC1 = (GenResponse.okPage wPageC1, wStoreC1) :=
  generate_idempotent_when_generated wStoreC1 "Smiley Face" wPageC1
    (by decide) (by decide) rfl

/-- C10: the markdown document depends only on the first ten related
emojis; lists agreeing on their first ten entries produce identical
content, so at most the first ten glyphs are enumerated even when
twenty are stored on the page record. -/
theorem generateSeoContent_uses_first_ten (k : String) (l : List Emoji) :
    generateSeoContent k l = generateSeoContent k (l.take 10) := by
  by_cases h : 0 < l.length
  · have h2 : 0 < (l.take 10).length := by
      simp only [List.length_take]; omega
    simp [generateSeoContent, List.take_take, h, h2]
  · have h0 : l = [] := List.eq_nil_of_length_eq_zero (by omega)
    subst h0; rfl

end EmojiCopy
